import Mathlib

/-!
Verification of the batch texture resizer (`src/resize-from-4k-to-1024.py`).

The script is embedded shallowly:

* A PNG file on disk is a `FileData`: either a decodable image carrying its
  pixel dimensions and raw bytes, or a corrupt file on which `Image.open`
  raises.
* The per-file body of the main loop is `stepFile`; the whole loop is
  `runLoop`, threading the three-counter `Tally`.
* The surrounding control flow (directory check, PNG enumeration, the
  first-five-files 4K heuristic and the interactive confirmation prompt) is
  `resize_textures`, taking the directory listing (`none` when the source
  directory does not exist) and the operator's prompt response.  `scriptRun`
  refines its input to the full filesystem trichotomy (missing path,
  existing non-directory path, directory), since an existing non-directory
  path passes the `os.path.exists` guard and makes `os.listdir` raise an
  uncaught `NotADirectoryError`.
* Arithmetic is exact rational arithmetic: `ratio` and the truncation
  `int(...)` of the script are `min` over `ℚ` and `Nat.floor`.
* PNG encoding is an abstract parameter `encode`; saving a resized image
  stores its new dimensions together with `encode`d bytes.  The combined
  resample-and-save step fails exactly when a computed target dimension is
  zero: this models Python's `ZeroDivisionError` (when a source dimension is
  zero) and the impossibility of producing a zero-dimension PNG.
-/

/-- `MAX_SIZE` constant of the script (line 14). -/
def MAX_SIZE : Nat := 1024

/-- Content of a file in the source directory: a decodable image with its
pixel size and on-disk bytes, or a corrupt file (`Image.open` raises). -/
inductive FileData where
  | image (w h : Nat) (bytes : List Nat)
  | corrupt (bytes : List Nat)
deriving DecidableEq

/-- Outcome of the per-file step of the main loop. -/
inductive Outcome where
  | resized
  | skipped
  | errored
deriving DecidableEq

/-- The three counters of the script (lines 54-56). -/
structure Tally where
  resized : Nat
  skipped : Nat
  errors : Nat
deriving DecidableEq

/-- Increment the counter selected by an outcome (lines 72, 88, 92). -/
def Tally.bump : Tally → Outcome → Tally
  | t, .resized => { t with resized := t.resized + 1 }
  | t, .skipped => { t with skipped := t.skipped + 1 }
  | t, .errored => { t with errors := t.errors + 1 }

/-- `ratio = min(MAX_SIZE / original_size[0], MAX_SIZE / original_size[1])`
(line 78), in exact rational arithmetic. -/
def ratio (w h : Nat) : ℚ :=
  min ((MAX_SIZE : ℚ) / w) ((MAX_SIZE : ℚ) / h)

/-- `new_size = (int(w * ratio), int(h * ratio))` (line 79); Python's `int`
truncation is `Nat.floor` on these non-negative values. -/
def newSize (w h : Nat) : Nat × Nat :=
  (⌊(w : ℚ) * ratio w h⌋₊, ⌊(h : ℚ) * ratio w h⌋₊)

/-- `needs_resize = original_size[0] > MAX_SIZE or original_size[1] > MAX_SIZE`
(line 68). -/
def needsResize (w h : Nat) : Bool :=
  decide (MAX_SIZE < w) || decide (MAX_SIZE < h)

/-- Body of the main loop for one file (lines 62-92): open, decide, compute
the target size, resample and save, or fall into the `except` branch.
Returns the outcome tallied for this file and the file's on-disk content
afterwards (source and target directory coincide, line 12-13). -/
def stepFile (encode : Nat → Nat → List Nat → List Nat) :
    FileData → Outcome × FileData
  | .corrupt bytes => (.errored, .corrupt bytes)
  | .image w h bytes =>
    if needsResize w h then
      let ns := newSize w h
      if ns.1 = 0 ∨ ns.2 = 0 then
        (.errored, .image w h bytes)
      else
        (.resized, .image ns.1 ns.2 (encode ns.1 ns.2 bytes))
    else
      (.skipped, .image w h bytes)

/-- The main loop (lines 58-92): process each enumerated file in order,
accumulating the tally and the directory contents after the run. -/
def runLoop (encode : Nat → Nat → List Nat → List Nat) :
    List (String × FileData) → Tally → Tally × List (String × FileData)
  | [], t => (t, [])
  | (n, fd) :: rest, t =>
    let r := stepFile encode fd
    let res := runLoop encode rest (t.bump r.1)
    (res.1, (n, r.2) :: res.2)

/-- Python's `str.lower()`, on the character list of a filename or response
(the script only ever lowers ASCII data). -/
def pyLower (s : String) : List Char :=
  s.data.map Char.toLower

/-- The extension filter `f.lower().endswith('.png')` (line 23). -/
def isPngName (name : String) : Bool :=
  ['.', 'p', 'n', 'g'].isSuffixOf (pyLower name)

/-- One file's contribution to the 4K heuristic (line 39): a decodable image
with either dimension at least 2048; a file that fails to open contributes
nothing (line 43-44). -/
def looks4k (fd : FileData) : Bool :=
  match fd with
  | .image w h _ => decide (2048 ≤ w) || decide (2048 ≤ h)
  | .corrupt _ => false

/-- The resolution heuristic (lines 34-44): scan the first five enumerated
files for one that opens with a dimension at least 2048. -/
def has4k (files : List FileData) : Bool :=
  (files.take 5).any looks4k

/-- Result of a whole run of the script. -/
inductive ProgResult where
  | dirNotFound
  | noFiles
  | cancelled
  | done (tally : Tally) (dir : List (String × FileData))
deriving DecidableEq

/-- Process exit status of a run: `sys.exit` codes at lines 20, 27, 52;
`none` when the run completed the main loop and the summary. -/
def exitCode : ProgResult → Option Nat
  | .dirNotFound => some 1
  | .noFiles => some 1
  | .cancelled => some 0
  | .done _ _ => none

/-- The whole of `resize_textures` (lines 16-100).  `sourceDir` is the
listing of `SOURCE_DIR` (`none` when `os.path.exists` at line 17 is false),
and `response` is what `input()` would return at the confirmation prompt.
An existing path that is not a directory passes the line-17 guard and is
not expressible here; `scriptRun` below models that case. -/
def resize_textures (encode : Nat → Nat → List Nat → List Nat)
    (sourceDir : Option (List (String × FileData))) (response : String) :
    ProgResult :=
  match sourceDir with
  | none => .dirNotFound
  | some entries =>
    let files := entries.filter (fun e => isPngName e.1)
    if files.isEmpty then .noFiles
    else if has4k (files.map Prod.snd) = false ∧ pyLower response ≠ ['y'] then
      .cancelled
    else
      let r := runLoop encode files ⟨0, 0, 0⟩
      .done r.1 r.2

/-- The three states of `SOURCE_DIR` on the real filesystem: a missing
path (`os.path.exists` false), an existing path that is not a directory,
or a directory with a listing. -/
inductive SourcePath where
  | missing
  | regularFile
  | dir (entries : List (String × FileData))
deriving DecidableEq

/-- Observable end of a whole process run: either the script's own control
flow (a `sys.exit` path or a completed summary), or the traceback of an
exception no handler catches. -/
inductive RunResult where
  | graceful (r : ProgResult)
  | uncaughtNotADirectory
deriving DecidableEq

/-- The run against the full filesystem model.  `os.path.exists` (line 17)
is also true for a regular file, so for such a path the guard falls through
and `os.listdir` (line 23) raises `NotADirectoryError`; the `__main__`
handler (lines 102-110) catches only `ImportError` and `KeyboardInterrupt`,
so the process dies with a traceback and no remediation hint is printed.
For the two cases `resize_textures` covers, `scriptRun` delegates to it. -/
def scriptRun (encode : Nat → Nat → List Nat → List Nat)
    (src : SourcePath) (response : String) : RunResult :=
  match src with
  | .missing => .graceful (resize_textures encode none response)
  | .regularFile => .uncaughtNotADirectory
  | .dir entries => .graceful (resize_textures encode (some entries) response)

/-- Exit status of a whole run; CPython terminates with status 1 on an
unhandled exception. -/
def runExitCode : RunResult → Option Nat
  | .graceful r => exitCode r
  | .uncaughtNotADirectory => some 1

/-! ### Arithmetic of the target size -/

/-- With both dimensions positive, the script's `ratio` is
`MAX_SIZE / max w h` exactly. -/
lemma ratio_eq (w h : Nat) (hw : 0 < w) (hh : 0 < h) :
    ratio w h = (MAX_SIZE : ℚ) / (max w h : ℕ) := by
  have hw' : (0:ℚ) < w := by exact_mod_cast hw
  have hh' : (0:ℚ) < h := by exact_mod_cast hh
  rcases le_total w h with hle | hle
  · rw [ratio, max_eq_right hle, min_eq_right]
    gcongr
  · rw [ratio, max_eq_left hle, min_eq_left]
    gcongr

/-- With both dimensions positive, the floored target size is exact natural
division: `newSize w h = (w * MAX_SIZE / max w h, h * MAX_SIZE / max w h)`. -/
lemma newSize_eq (w h : Nat) (hw : 0 < w) (hh : 0 < h) :
    newSize w h = (w * MAX_SIZE / max w h, h * MAX_SIZE / max w h) := by
  have h1 : (w:ℚ) * ratio w h = ((w * MAX_SIZE : ℕ) : ℚ) / ((max w h : ℕ) : ℚ) := by
    rw [ratio_eq w h hw hh]; push_cast; ring
  have h2 : (h:ℚ) * ratio w h = ((h * MAX_SIZE : ℕ) : ℚ) / ((max w h : ℕ) : ℚ) := by
    rw [ratio_eq w h hw hh]; push_cast; ring
  unfold newSize
  rw [h1, h2, Nat.floor_div_nat, Nat.floor_div_nat, Nat.floor_natCast,
    Nat.floor_natCast]

/-- If either dimension is zero the ratio degenerates to `0` (in Python this
path raises `ZeroDivisionError`; in `ℚ` division by zero is zero). -/
lemma ratio_of_zero (w h : Nat) (hz : w = 0 ∨ h = 0) : ratio w h = 0 := by
  rcases hz with hz | hz
  · subst hz
    have h0 : (0:ℚ) ≤ (MAX_SIZE : ℚ) / h := by positivity
    rw [ratio]
    push_cast
    rw [div_zero]
    exact min_eq_left h0
  · subst hz
    have h0 : (0:ℚ) ≤ (MAX_SIZE : ℚ) / w := by positivity
    rw [ratio]
    push_cast
    rw [div_zero]
    exact min_eq_right h0

/-- Both components of the computed target size are at most `MAX_SIZE`,
for every input size whatsoever. -/
lemma newSize_le (w h : Nat) :
    (newSize w h).1 ≤ MAX_SIZE ∧ (newSize w h).2 ≤ MAX_SIZE := by
  by_cases hz : w = 0 ∨ h = 0
  · have : newSize w h = (0, 0) := by
      unfold newSize
      rw [ratio_of_zero w h hz]
      simp
    rw [this]
    exact ⟨Nat.zero_le _, Nat.zero_le _⟩
  · push_neg at hz
    have hw : 0 < w := Nat.pos_of_ne_zero hz.1
    have hh : 0 < h := Nat.pos_of_ne_zero hz.2
    have hmax : 0 < max w h := lt_max_of_lt_left hw
    rw [newSize_eq w h hw hh]
    constructor
    · calc w * MAX_SIZE / max w h ≤ max w h * MAX_SIZE / max w h :=
            Nat.div_le_div_right (Nat.mul_le_mul_right _ (le_max_left w h))
        _ = MAX_SIZE := Nat.mul_div_cancel_left _ hmax
    · calc h * MAX_SIZE / max w h ≤ max w h * MAX_SIZE / max w h :=
            Nat.div_le_div_right (Nat.mul_le_mul_right _ (le_max_right w h))
        _ = MAX_SIZE := Nat.mul_div_cancel_left _ hmax

/-- For positive dimensions the larger component of the computed target size
is exactly `MAX_SIZE`. -/
lemma newSize_max (w h : Nat) (hw : 0 < w) (hh : 0 < h) :
    max (newSize w h).1 (newSize w h).2 = MAX_SIZE := by
  have hle := newSize_le w h
  rw [newSize_eq w h hw hh] at hle ⊢
  rcases le_total w h with hle' | hle'
  · rw [max_eq_right hle'] at hle ⊢
    rw [Nat.mul_div_cancel_left _ hh]
    exact max_eq_right hle.1
  · rw [max_eq_left hle'] at hle ⊢
    rw [Nat.mul_div_cancel_left _ hw]
    exact max_eq_left hle.2

/-- The script's ratio written with the literal `MAX_SIZE = 1024`. -/
lemma ratio_spec (w h : Nat) :
    ratio w h = min ((1024:ℚ) / w) ((1024:ℚ) / h) := by
  rw [ratio]
  norm_num [MAX_SIZE]

lemma ratio_nonneg (w h : Nat) : 0 ≤ ratio w h :=
  le_min (by positivity) (by positivity)

/-- In the triggering branch (some dimension exceeds `MAX_SIZE`) the ratio
is at most one. -/
lemma ratio_le_one (w h : Nat) (hw : 0 < w) (hh : 0 < h)
    (hr : needsResize w h = true) : ratio w h ≤ 1 := by
  simp only [needsResize, Bool.or_eq_true, decide_eq_true_eq] at hr
  have hmax : MAX_SIZE < max w h := by omega
  have hmax' : (0:ℚ) < ((max w h : ℕ) : ℚ) := by
    have : 0 < max w h := by omega
    exact_mod_cast this
  rw [ratio_eq w h hw hh, div_le_one hmax']
  exact_mod_cast le_of_lt hmax

lemma max_4096_2048 : max (4096:ℕ) 2048 = 4096 := by decide

lemma newSize_4096_2048 : newSize 4096 2048 = (1024, 512) := by
  rw [newSize_eq 4096 2048 (by norm_num) (by norm_num)]
  decide

lemma newSize_4096_1 : newSize 4096 1 = (1024, 0) := by
  rw [newSize_eq 4096 1 (by norm_num) (by norm_num)]
  decide

lemma ratio_4096_2048 : ratio 4096 2048 = 1/4 := by
  rw [ratio_eq 4096 2048 (by norm_num) (by norm_num), max_4096_2048]
  norm_num [MAX_SIZE]

/-! ### The per-file step -/

lemma needsResize_false_iff (w h : Nat) :
    needsResize w h = false ↔ w ≤ MAX_SIZE ∧ h ≤ MAX_SIZE := by
  simp only [needsResize, Bool.or_eq_false_iff, decide_eq_false_iff_not, not_lt]

lemma needsResize_true_iff (w h : Nat) :
    needsResize w h = true ↔ MAX_SIZE < w ∨ MAX_SIZE < h := by
  simp [needsResize]

lemma stepFile_corrupt (enc : Nat → Nat → List Nat → List Nat) (b : List Nat) :
    stepFile enc (.corrupt b) = (.errored, .corrupt b) := rfl

/-- A file already within bounds is skipped and its bytes are untouched. -/
lemma stepFile_skip (enc : Nat → Nat → List Nat → List Nat) (w h : Nat)
    (b : List Nat) (hw : w ≤ MAX_SIZE) (hh : h ≤ MAX_SIZE) :
    stepFile enc (.image w h b) = (.skipped, .image w h b) := by
  have hr : needsResize w h = false := (needsResize_false_iff w h).2 ⟨hw, hh⟩
  simp [stepFile, hr]

/-- When the geometry is non-degenerate (`max w h ≤ MAX_SIZE * min w h`),
both target dimensions are positive. -/
lemma newSize_pos (w h : Nat) (hw : 0 < w) (hh : 0 < h)
    (ha : max w h ≤ MAX_SIZE * min w h) :
    0 < (newSize w h).1 ∧ 0 < (newSize w h).2 := by
  rw [newSize_eq w h hw hh]
  constructor
  · apply Nat.div_pos ?_ (by omega)
    calc max w h ≤ MAX_SIZE * min w h := ha
      _ ≤ MAX_SIZE * w := Nat.mul_le_mul_left _ (min_le_left w h)
      _ = w * MAX_SIZE := Nat.mul_comm _ _
  · apply Nat.div_pos ?_ (by omega)
    calc max w h ≤ MAX_SIZE * min w h := ha
      _ ≤ MAX_SIZE * h := Nat.mul_le_mul_left _ (min_le_right w h)
      _ = h * MAX_SIZE := Nat.mul_comm _ _

/-- In the resize branch with non-degenerate geometry the step resizes and
saves: the stored file carries the floored target size and encoded bytes. -/
lemma stepFile_resize (enc : Nat → Nat → List Nat → List Nat) (w h : Nat)
    (b : List Nat) (hw : 0 < w) (hh : 0 < h) (hr : needsResize w h = true)
    (ha : max w h ≤ MAX_SIZE * min w h) :
    stepFile enc (.image w h b) =
      (.resized, .image (newSize w h).1 (newSize w h).2
        (enc (newSize w h).1 (newSize w h).2 b)) := by
  have hp := newSize_pos w h hw hh ha
  have hz : ¬((newSize w h).1 = 0 ∨ (newSize w h).2 = 0) := by omega
  simp [stepFile, hr, hz]

/-- In the resize branch a zero target dimension sends the file to the
`except` branch, leaving it unchanged on disk. -/
lemma stepFile_err_zero (enc : Nat → Nat → List Nat → List Nat) (w h : Nat)
    (b : List Nat) (hr : needsResize w h = true)
    (hz : (newSize w h).1 = 0 ∨ (newSize w h).2 = 0) :
    stepFile enc (.image w h b) = (.errored, .image w h b) := by
  simp [stepFile, hr, hz]

/-- A file whose step did not error ends up a decodable image with both
dimensions within `MAX_SIZE`. -/
lemma stepFile_result_small (enc : Nat → Nat → List Nat → List Nat)
    (fd : FileData) (hne : (stepFile enc fd).1 ≠ .errored) :
    ∃ w h b, (stepFile enc fd).2 = .image w h b ∧
      w ≤ MAX_SIZE ∧ h ≤ MAX_SIZE := by
  match fd with
  | .corrupt b => exact absurd rfl hne
  | .image w h b =>
    by_cases hr : needsResize w h = true
    · by_cases hz : (newSize w h).1 = 0 ∨ (newSize w h).2 = 0
      · rw [stepFile_err_zero enc w h b hr hz] at hne
        exact absurd rfl hne
      · refine ⟨(newSize w h).1, (newSize w h).2, enc (newSize w h).1 (newSize w h).2 b,
          ?_, (newSize_le w h).1, (newSize_le w h).2⟩
        simp [stepFile, hr, hz]
    · have hr' : needsResize w h = false := by
        revert hr
        cases needsResize w h <;> simp
      have hsmall := (needsResize_false_iff w h).1 hr'
      exact ⟨w, h, b, by rw [stepFile_skip enc w h b hsmall.1 hsmall.2], hsmall.1, hsmall.2⟩

/-! ### The main loop -/

/-- How many files of a listing the step sends to a given outcome. -/
def outCount (enc : Nat → Nat → List Nat → List Nat) (o : Outcome)
    (l : List (String × FileData)) : Nat :=
  l.countP (fun e => decide ((stepFile enc e.2).1 = o))

/-- The loop's final tally adds, to each starting counter, the number of
files stepping to that outcome. -/
lemma runLoop_fst (enc : Nat → Nat → List Nat → List Nat) :
    ∀ (l : List (String × FileData)) (t : Tally),
      (runLoop enc l t).1 =
        ⟨t.resized + outCount enc .resized l,
         t.skipped + outCount enc .skipped l,
         t.errors + outCount enc .errored l⟩
  | [], t => by simp [runLoop, outCount]
  | (n, fd) :: rest, t => by
    have ih := runLoop_fst enc rest (t.bump (stepFile enc fd).1)
    simp only [runLoop]
    rw [ih]
    rcases ho : (stepFile enc fd).1 <;>
      simp [outCount, Tally.bump, List.countP_cons, ho, Nat.add_assoc,
        Nat.add_comm 1]

/-- The loop visits every file exactly once, in order, writing each file's
post-step content; the resulting listing does not depend on the tally. -/
lemma runLoop_snd (enc : Nat → Nat → List Nat → List Nat) :
    ∀ (l : List (String × FileData)) (t : Tally),
      (runLoop enc l t).2 = l.map (fun e => (e.1, (stepFile enc e.2).2))
  | [], _ => rfl
  | (n, fd) :: rest, t => by
    simp only [runLoop, List.map_cons]
    rw [runLoop_snd enc rest (t.bump (stepFile enc fd).1)]

/-- Each file steps to exactly one outcome, so the three outcome counts
partition the listing. -/
lemma outCount_total (enc : Nat → Nat → List Nat → List Nat) :
    ∀ l : List (String × FileData),
      outCount enc .resized l + outCount enc .skipped l +
        outCount enc .errored l = l.length
  | [] => rfl
  | e :: rest => by
    have ih := outCount_total enc rest
    rcases ho : (stepFile enc e.2).1 <;>
      simp only [outCount, List.countP_cons, ho, List.length_cons] at ih ⊢ <;>
      simp <;> omega

/-- A listing of decodable images all within bounds is skipped wholesale:
the tally gains only `skipped` and the directory is untouched. -/
lemma runLoop_all_skipped (enc : Nat → Nat → List Nat → List Nat) :
    ∀ (l : List (String × FileData)) (t : Tally),
      (∀ e ∈ l, ∃ w h b, e.2 = FileData.image w h b ∧
        w ≤ MAX_SIZE ∧ h ≤ MAX_SIZE) →
      runLoop enc l t = ({ t with skipped := t.skipped + l.length }, l)
  | [], t, _ => by simp [runLoop]
  | (n, fd) :: rest, t, hall => by
    obtain ⟨w, h, b, hfd, hw, hh⟩ := hall (n, fd) (List.mem_cons_self _ _)
    simp only at hfd
    subst hfd
    have hstep := stepFile_skip enc w h b hw hh
    have ih := runLoop_all_skipped enc rest (t.bump .skipped)
      (fun e he => hall e (List.mem_cons_of_mem _ he))
    simp only [runLoop, hstep]
    rw [ih]
    have harith : t.skipped + 1 + rest.length = t.skipped + (rest.length + 1) := by
      omega
    simp [Tally.bump, harith]

/-- A file the script can fully process: a decodable image with positive
dimensions whose aspect ratio is mild enough (`max w h ≤ MAX_SIZE * min w h`)
that both floored target dimensions stay positive, so neither the open nor
the resize-and-save step can raise. -/
def processable (fd : FileData) : Bool :=
  match fd with
  | .image w h _ =>
    decide (0 < w) && decide (0 < h) && decide (max w h ≤ MAX_SIZE * min w h)
  | .corrupt _ => false

/-- A processable file never lands in the `except` branch. -/
lemma stepFile_processable (enc : Nat → Nat → List Nat → List Nat)
    (fd : FileData) (hp : processable fd = true) :
    (stepFile enc fd).1 ≠ .errored := by
  match fd with
  | .corrupt b => simp [processable] at hp
  | .image w h b =>
    simp only [processable, Bool.and_eq_true, decide_eq_true_eq] at hp
    obtain ⟨⟨hw, hh⟩, ha⟩ := hp
    by_cases hr : needsResize w h = true
    · rw [stepFile_resize enc w h b hw hh hr ha]
      simp
    · have hr' : needsResize w h = false := by
        revert hr
        cases needsResize w h <;> simp
      have hsmall := (needsResize_false_iff w h).1 hr'
      rw [stepFile_skip enc w h b hsmall.1 hsmall.2]
      simp

/-- With positive dimensions and `h ≤ w`, the width component of the target
size is exactly `MAX_SIZE`. -/
lemma newSize_fst_of_le (w h : Nat) (hw : 0 < w) (hh : 0 < h) (hle : h ≤ w) :
    (newSize w h).1 = MAX_SIZE := by
  rw [newSize_eq w h hw hh, max_eq_left hle]
  exact Nat.mul_div_cancel_left _ hw

/-- With positive dimensions and `w ≤ h`, the height component of the target
size is exactly `MAX_SIZE`. -/
lemma newSize_snd_of_le (w h : Nat) (hw : 0 < w) (hh : 0 < h) (hle : w ≤ h) :
    (newSize w h).2 = MAX_SIZE := by
  rw [newSize_eq w h hw hh, max_eq_right hle]
  exact Nat.mul_div_cancel_left _ hh

/-- A run that reaches the summary used the main loop on the enumerated PNG
files starting from a zero tally. -/
lemma resize_done_inv (enc : Nat → Nat → List Nat → List Nat)
    (entries : List (String × FileData)) (response : String) (t : Tally)
    (d : List (String × FileData))
    (hdone : resize_textures enc (some entries) response = .done t d) :
    t = (runLoop enc (entries.filter fun e => isPngName e.1) ⟨0, 0, 0⟩).1 ∧
    d = (runLoop enc (entries.filter fun e => isPngName e.1) ⟨0, 0, 0⟩).2 := by
  unfold resize_textures at hdone
  by_cases h1 : (entries.filter fun e => isPngName e.1).isEmpty = true
  · simp [h1] at hdone
  · by_cases h2 : has4k ((entries.filter fun e => isPngName e.1).map Prod.snd)
        = false ∧ pyLower response ≠ ['y']
    · simp [h1, h2] at hdone
    · simp [h1, h2] at hdone
      exact ⟨hdone.1.symm, hdone.2.symm⟩

/-! ### Claims -/

/-- **C1.**  For every image entering the resize branch (positive dimensions,
non-degenerate aspect so the save completes), the stored size is
`(⌊w * min (1024/w) (1024/h)⌋, ⌊h * min (1024/w) (1024/h)⌋)` — the spec's
formula spelled with the literal `MAX_SIZE = 1024`; in particular for
4096×2048 the ratio is 1/4, the output is 1024×512, and one pass over such a
file increments `resized` by exactly one, leaving the other counters
unchanged. -/
theorem C1_resize_target_size (enc : Nat → Nat → List Nat → List Nat)
    (w h : Nat) (b : List Nat) (t : Tally) (hw : 0 < w) (hh : 0 < h)
    (hr : needsResize w h = true) (ha : max w h ≤ MAX_SIZE * min w h) :
    stepFile enc (.image w h b) =
      (.resized,
        .image ⌊(w:ℚ) * min ((1024:ℚ)/w) ((1024:ℚ)/h)⌋₊
          ⌊(h:ℚ) * min ((1024:ℚ)/w) ((1024:ℚ)/h)⌋₊
          (enc ⌊(w:ℚ) * min ((1024:ℚ)/w) ((1024:ℚ)/h)⌋₊
            ⌊(h:ℚ) * min ((1024:ℚ)/w) ((1024:ℚ)/h)⌋₊ b)) ∧
    ratio 4096 2048 = 1/4 ∧
    newSize 4096 2048 = (1024, 512) ∧
    (runLoop enc [("tex.png", .image 4096 2048 b)] t).1.resized = t.resized + 1 ∧
    (runLoop enc [("tex.png", .image 4096 2048 b)] t).1.skipped = t.skipped ∧
    (runLoop enc [("tex.png", .image 4096 2048 b)] t).1.errors = t.errors := by
  have hspec : min ((1024:ℚ)/w) ((1024:ℚ)/h) = ratio w h := (ratio_spec w h).symm
  have hns1 : ⌊(w:ℚ) * min ((1024:ℚ)/w) ((1024:ℚ)/h)⌋₊ = (newSize w h).1 := by
    rw [hspec]
    exact rfl
  have hns2 : ⌊(h:ℚ) * min ((1024:ℚ)/w) ((1024:ℚ)/h)⌋₊ = (newSize w h).2 := by
    rw [hspec]
    exact rfl
  have hstep := stepFile_resize enc 4096 2048 b (by norm_num) (by norm_num)
    (by decide) (by decide)
  rw [newSize_4096_2048] at hstep
  refine ⟨?_, ratio_4096_2048, newSize_4096_2048, ?_, ?_, ?_⟩
  · rw [hns1, hns2]
    exact stepFile_resize enc w h b hw hh hr ha
  · simp [runLoop, hstep, Tally.bump]
  · simp [runLoop, hstep, Tally.bump]
  · simp [runLoop, hstep, Tally.bump]

/-- **C2 counterexample.**  The claim says only the negative token halts and
every other response (the empty one included) continues; but on the empty
response the code cancels with exit status 0 even though the response is
neither `n` nor `y`. -/
theorem C2_prompt_counterexample :
    resize_textures (fun _ _ b => b)
      (some [("a.png", FileData.image 100 100 [])]) "" = .cancelled ∧
    exitCode (resize_textures (fun _ _ b => b)
      (some [("a.png", FileData.image 100 100 [])]) "") = some 0 ∧
    pyLower "" ≠ ['n'] ∧ pyLower "" ≠ ['y'] := by decide

/-- **C2 amended.**  When the prompt is reached, the run is cancelled (exit
status 0) for every response except an exact case-insensitive match of the
affirmative token `y`; only that token lets the main loop proceed. -/
theorem C2_prompt_requires_yes (enc : Nat → Nat → List Nat → List Nat)
    (entries : List (String × FileData)) (response : String)
    (hne : (entries.filter fun e => isPngName e.1).isEmpty = false)
    (h4 : has4k ((entries.filter fun e => isPngName e.1).map Prod.snd) = false) :
    (resize_textures enc (some entries) response = .cancelled ↔
      pyLower response ≠ ['y']) ∧
    exitCode ProgResult.cancelled = some 0 := by
  refine ⟨?_, rfl⟩
  by_cases hy : pyLower response = ['y']
  · simp [resize_textures, hne, h4, hy]
  · simp [resize_textures, hne, h4, hy]

/-- **C3.**  A file already within bounds is skipped: its on-disk content is
unmodified byte for byte, only the `skipped` counter is incremented, and
`resized` and `errors` are unchanged for that file. -/
theorem C3_skip_leaves_file (enc : Nat → Nat → List Nat → List Nat)
    (w h : Nat) (b : List Nat) (t : Tally)
    (hw : w ≤ MAX_SIZE) (hh : h ≤ MAX_SIZE) :
    stepFile enc (.image w h b) = (.skipped, .image w h b) ∧
    (t.bump (stepFile enc (.image w h b)).1).skipped = t.skipped + 1 ∧
    (t.bump (stepFile enc (.image w h b)).1).resized = t.resized ∧
    (t.bump (stepFile enc (.image w h b)).1).errors = t.errors := by
  have hs := stepFile_skip enc w h b hw hh
  rw [hs]
  exact ⟨rfl, rfl, rfl, rfl⟩

/-- **C4 counterexample.**  A second pass is not always all-skipped with zero
errors: a directory holding one corrupt file errors on the first pass, the
file stays corrupt on disk, and the second pass errors on it again. -/
theorem C4_twice_counterexample :
    (runLoop (fun _ _ b => b)
      (runLoop (fun _ _ b => b) [("bad.png", FileData.corrupt [])] ⟨0,0,0⟩).2
      ⟨0,0,0⟩).1.errors = 1 ∧
    (runLoop (fun _ _ b => b)
      (runLoop (fun _ _ b => b) [("bad.png", FileData.corrupt [])] ⟨0,0,0⟩).2
      ⟨0,0,0⟩).1.skipped = 0 := by decide

/-- **C4 amended.**  If the first pass of the loop errors on no file, then a
second pass over the resulting directory is a no-op: every file is skipped
(each written dimension being at most `MAX_SIZE`), with zero resized, zero
errored, and the directory contents unchanged. -/
theorem C4_second_run_skips (enc enc' : Nat → Nat → List Nat → List Nat)
    (l : List (String × FileData))
    (hclean : (runLoop enc l ⟨0,0,0⟩).1.errors = 0) :
    runLoop enc' (runLoop enc l ⟨0,0,0⟩).2 ⟨0,0,0⟩ =
      ({ resized := 0, skipped := (runLoop enc l ⟨0,0,0⟩).2.length, errors := 0 },
       (runLoop enc l ⟨0,0,0⟩).2) := by
  rw [runLoop_fst enc l ⟨0,0,0⟩] at hclean
  simp only [outCount] at hclean
  have hcnt : l.countP (fun e => decide ((stepFile enc e.2).1 = .errored)) = 0 := by
    omega
  have hall : ∀ e ∈ l, (stepFile enc e.2).1 ≠ .errored := by
    intro e he
    have := List.countP_eq_zero.mp hcnt e he
    simpa using this
  have hsmall : ∀ e ∈ (runLoop enc l ⟨0,0,0⟩).2, ∃ w h b,
      e.2 = FileData.image w h b ∧ w ≤ MAX_SIZE ∧ h ≤ MAX_SIZE := by
    intro e he
    rw [runLoop_snd] at he
    obtain ⟨e₀, he₀, rfl⟩ := List.mem_map.mp he
    exact stepFile_result_small enc e₀.2 (hall e₀ he₀)
  have := runLoop_all_skipped enc' ((runLoop enc l ⟨0,0,0⟩).2) ⟨0,0,0⟩ hsmall
  simpa using this

/-- **C5.**  An exception on one file is caught and isolated: a listing of
one corrupt file among processable files yields exactly one error, all other
files are resized or skipped (`resized + skipped` counts them all), and the
batch visits every file (the resulting directory has the full length — it
never aborts). -/
theorem C5_one_bad_file (enc : Nat → Nat → List Nat → List Nat)
    (pre post : List (String × FileData)) (n : String) (cb : List Nat)
    (hpre : ∀ e ∈ pre, processable e.2 = true)
    (hpost : ∀ e ∈ post, processable e.2 = true) :
    (runLoop enc (pre ++ (n, FileData.corrupt cb) :: post) ⟨0,0,0⟩).1.errors = 1 ∧
    (runLoop enc (pre ++ (n, FileData.corrupt cb) :: post) ⟨0,0,0⟩).1.resized +
      (runLoop enc (pre ++ (n, FileData.corrupt cb) :: post) ⟨0,0,0⟩).1.skipped =
      pre.length + post.length ∧
    (runLoop enc (pre ++ (n, FileData.corrupt cb) :: post) ⟨0,0,0⟩).2.length =
      pre.length + 1 + post.length := by
  have hfst := runLoop_fst enc (pre ++ (n, FileData.corrupt cb) :: post) ⟨0,0,0⟩
  have htotal := outCount_total enc (pre ++ (n, FileData.corrupt cb) :: post)
  have hpre0 : pre.countP (fun e => decide ((stepFile enc e.2).1 = .errored)) = 0 :=
    List.countP_eq_zero.mpr (fun e he => by
      simp only [decide_eq_true_eq]
      exact stepFile_processable enc e.2 (hpre e he))
  have hpost0 : post.countP (fun e => decide ((stepFile enc e.2).1 = .errored)) = 0 :=
    List.countP_eq_zero.mpr (fun e he => by
      simp only [decide_eq_true_eq]
      exact stepFile_processable enc e.2 (hpost e he))
  have herr : outCount enc .errored (pre ++ (n, FileData.corrupt cb) :: post) = 1 := by
    simp [outCount, List.countP_append, List.countP_cons, hpre0, hpost0,
      stepFile_corrupt]
  have hlen : (pre ++ (n, FileData.corrupt cb) :: post).length =
      pre.length + post.length + 1 := by
    simp
    omega
  have hsnd := runLoop_snd enc (pre ++ (n, FileData.corrupt cb) :: post) ⟨0,0,0⟩
  refine ⟨?_, ?_, ?_⟩
  · rw [hfst]
    simpa using herr
  · rw [hfst]
    simp only [Tally.mk.injEq]
    simp
    omega
  · rw [hsnd]
    simp
    omega

/-- **C6.**  In the resize branch with positive dimensions: the ratio is at
most 1, the larger output dimension is exactly `MAX_SIZE`, each output
dimension equals its exactly-proportional value to within less than one
pixel of floor rounding, and the smaller output dimension is within one
pixel of exact aspect-ratio preservation against the (exact) larger one. -/
theorem C6_aspect_preserved (w h : Nat) (hw : 0 < w) (hh : 0 < h)
    (hr : needsResize w h = true) :
    ratio w h ≤ 1 ∧
    max (newSize w h).1 (newSize w h).2 = MAX_SIZE ∧
    (((newSize w h).1 : ℚ) ≤ (w:ℚ) * ratio w h ∧
      (w:ℚ) * ratio w h - 1 < ((newSize w h).1 : ℚ)) ∧
    (((newSize w h).2 : ℚ) ≤ (h:ℚ) * ratio w h ∧
      (h:ℚ) * ratio w h - 1 < ((newSize w h).2 : ℚ)) ∧
    (h ≤ w → ((newSize w h).2 : ℚ) ≤ (h:ℚ) * ((newSize w h).1 : ℚ) / (w:ℚ) ∧
      (h:ℚ) * ((newSize w h).1 : ℚ) / (w:ℚ) - 1 < ((newSize w h).2 : ℚ)) ∧
    (w ≤ h → ((newSize w h).1 : ℚ) ≤ (w:ℚ) * ((newSize w h).2 : ℚ) / (h:ℚ) ∧
      (w:ℚ) * ((newSize w h).2 : ℚ) / (h:ℚ) - 1 < ((newSize w h).1 : ℚ)) := by
  have haw : (0:ℚ) ≤ (w:ℚ) * ratio w h :=
    mul_nonneg (by positivity) (ratio_nonneg w h)
  have hah : (0:ℚ) ≤ (h:ℚ) * ratio w h :=
    mul_nonneg (by positivity) (ratio_nonneg w h)
  have hw1 : (((newSize w h).1 : ℕ) : ℚ) ≤ (w:ℚ) * ratio w h := Nat.floor_le haw
  have hw2 : (w:ℚ) * ratio w h - 1 < (((newSize w h).1 : ℕ) : ℚ) :=
    Nat.sub_one_lt_floor _
  have hh1 : (((newSize w h).2 : ℕ) : ℚ) ≤ (h:ℚ) * ratio w h := Nat.floor_le hah
  have hh2 : (h:ℚ) * ratio w h - 1 < (((newSize w h).2 : ℕ) : ℚ) :=
    Nat.sub_one_lt_floor _
  refine ⟨ratio_le_one w h hw hh hr, newSize_max w h hw hh,
    ⟨hw1, hw2⟩, ⟨hh1, hh2⟩, ?_, ?_⟩
  · intro hle
    have heq : (h:ℚ) * ((newSize w h).1 : ℚ) / (w:ℚ) = (h:ℚ) * ratio w h := by
      rw [newSize_fst_of_le w h hw hh hle, ratio_eq w h hw hh, max_eq_left hle]
      have hw0 : (w:ℚ) ≠ 0 := by positivity
      field_simp
    rw [heq]
    exact ⟨hh1, hh2⟩
  · intro hle
    have heq : (w:ℚ) * ((newSize w h).2 : ℚ) / (h:ℚ) = (w:ℚ) * ratio w h := by
      rw [newSize_snd_of_le w h hw hh hle, ratio_eq w h hw hh, max_eq_right hle]
      have hh0 : (h:ℚ) ≠ 0 := by positivity
      field_simp
    rw [heq]
    exact ⟨hw1, hw2⟩

/-- **C7 counterexample.**  The claim treats an existing non-directory path
like a missing one (non-zero exit after printing the remediation hint); but
for such a path the line-17 existence check passes and `os.listdir` raises
an uncaught `NotADirectoryError`: the run ends in a traceback, not in the
hint-printing `dirNotFound` path. -/
theorem C7_not_dir_counterexample :
    scriptRun (fun _ _ b => b) SourcePath.regularFile "" =
      RunResult.uncaughtNotADirectory ∧
    scriptRun (fun _ _ b => b) SourcePath.regularFile "" ≠
      RunResult.graceful ProgResult.dirNotFound := by decide

/-- **C7 amended.**  A missing source path exits gracefully with status 1
after the remediation hint, without touching any file; an existing path
that is not a directory instead dies with an uncaught `NotADirectoryError`
(still a non-zero exit, but a traceback with no remediation hint); a
directory whose listing has no case-insensitive `.png` name yields
`noFiles` and exit status 1 with no resize attempt. -/
theorem C7_fatal_validation (enc : Nat → Nat → List Nat → List Nat)
    (response : String) (entries : List (String × FileData))
    (hnone : (entries.filter fun e => isPngName e.1).isEmpty = true) :
    scriptRun enc .missing response = .graceful .dirNotFound ∧
    runExitCode (scriptRun enc .missing response) = some 1 ∧
    scriptRun enc .regularFile response = .uncaughtNotADirectory ∧
    runExitCode (scriptRun enc .regularFile response) = some 1 ∧
    scriptRun enc (.dir entries) response = .graceful .noFiles ∧
    runExitCode (scriptRun enc (.dir entries) response) = some 1 := by
  have hnf : resize_textures enc (some entries) response = .noFiles := by
    simp [resize_textures, hnone]
  have hgr : scriptRun enc (.dir entries) response =
      RunResult.graceful ProgResult.noFiles := by
    show RunResult.graceful (resize_textures enc (some entries) response) = _
    rw [hnf]
  refine ⟨rfl, rfl, rfl, rfl, hgr, ?_⟩
  rw [hgr]
  rfl

/-- **C8.**  The resolution heuristic: a file that fails to open contributes
nothing; the verdict depends only on the first five enumerated files; it
concludes high-resolution iff some inspected file opens as an image with a
dimension at least 2048; and when it concludes high-resolution the run does
not consult the operator response (the prompt is skipped). -/
theorem C8_heuristic :
    (∀ b, looks4k (FileData.corrupt b) = false) ∧
    (∀ l l' : List FileData, l.take 5 = l'.take 5 → has4k l = has4k l') ∧
    (∀ l : List FileData, has4k l = true ↔
      ∃ fd ∈ l.take 5, ∃ w h b, fd = FileData.image w h b ∧
        (2048 ≤ w ∨ 2048 ≤ h)) ∧
    (∀ (enc : Nat → Nat → List Nat → List Nat) entries r1 r2,
      has4k ((entries.filter fun e => isPngName e.1).map Prod.snd) = true →
      resize_textures enc (some entries) r1 = resize_textures enc (some entries) r2) := by
  refine ⟨fun b => rfl, ?_, ?_, ?_⟩
  · intro l l' hpre
    rw [has4k, has4k, hpre]
  · intro l
    rw [has4k, List.any_eq_true]
    constructor
    · rintro ⟨fd, hmem, hfd⟩
      refine ⟨fd, hmem, ?_⟩
      match fd with
      | .image w h b =>
        refine ⟨w, h, b, rfl, ?_⟩
        simpa [looks4k] using hfd
      | .corrupt b => simp [looks4k] at hfd
    · rintro ⟨fd, hmem, w, h, b, rfl, hbig⟩
      refine ⟨_, hmem, ?_⟩
      simpa [looks4k] using hbig
  · intro enc entries r1 r2 h4
    by_cases hne : (entries.filter fun e => isPngName e.1).isEmpty = true
    · simp [resize_textures, hne]
    · simp [resize_textures, hne, h4]

/-- **C9.**  Any run that reaches the summary tallies each enumerated PNG
file under exactly one counter: `resized + skipped + errors` equals the
number of enumerated files, each counter is at most that number, and the
loop visited every file. -/
theorem C9_tally_partition (enc : Nat → Nat → List Nat → List Nat)
    (entries : List (String × FileData)) (response : String) (t : Tally)
    (d : List (String × FileData))
    (hdone : resize_textures enc (some entries) response = .done t d) :
    t.resized + t.skipped + t.errors =
      (entries.filter fun e => isPngName e.1).length ∧
    t.resized ≤ (entries.filter fun e => isPngName e.1).length ∧
    t.skipped ≤ (entries.filter fun e => isPngName e.1).length ∧
    t.errors ≤ (entries.filter fun e => isPngName e.1).length ∧
    d.length = (entries.filter fun e => isPngName e.1).length := by
  obtain ⟨ht, hd⟩ := resize_done_inv enc entries response t d hdone
  subst ht
  subst hd
  rw [runLoop_fst enc (entries.filter fun e => isPngName e.1) ⟨0,0,0⟩,
    runLoop_snd enc (entries.filter fun e => isPngName e.1) ⟨0,0,0⟩]
  have htotal := outCount_total enc (entries.filter fun e => isPngName e.1)
  refine ⟨?_, ?_, ?_, ?_, ?_⟩
  · simp
    omega
  · simp
    omega
  · simp
    omega
  · simp
    omega
  · simp

/-- **C10.**  Degenerate aspect ratios break the resize: whenever
`MAX_SIZE * min w h < max w h` (e.g. 4096×1), the smaller floored target
dimension is 0, no valid image can be saved, and the file is tallied under
`errors` rather than `resized`, its bytes unchanged. -/
theorem C10_zero_dimension_errors (enc : Nat → Nat → List Nat → List Nat)
    (w h : Nat) (b : List Nat) (t : Tally) (hw : 0 < w) (hh : 0 < h)
    (hdeg : MAX_SIZE * min w h < max w h) :
    needsResize w h = true ∧
    ((newSize w h).1 = 0 ∨ (newSize w h).2 = 0) ∧
    stepFile enc (.image w h b) = (.errored, .image w h b) ∧
    newSize 4096 1 = (1024, 0) ∧
    (runLoop enc [("strip.png", FileData.image 4096 1 b)] t).1.errors =
      t.errors + 1 ∧
    (runLoop enc [("strip.png", FileData.image 4096 1 b)] t).1.resized =
      t.resized := by
  have hr : needsResize w h = true := by
    rw [needsResize_true_iff]
    have h1 : MAX_SIZE ≤ MAX_SIZE * min w h := by
      have : 1 ≤ min w h := by omega
      calc MAX_SIZE = MAX_SIZE * 1 := by omega
        _ ≤ MAX_SIZE * min w h := Nat.mul_le_mul_left _ this
    omega
  have hz : (newSize w h).1 = 0 ∨ (newSize w h).2 = 0 := by
    rw [newSize_eq w h hw hh]
    rcases le_total w h with hle | hle
    · left
      have hlt : w * MAX_SIZE < max w h := by
        rw [min_eq_left hle] at hdeg
        rw [Nat.mul_comm]
        exact hdeg
      exact Nat.div_eq_of_lt hlt
    · right
      have hlt : h * MAX_SIZE < max w h := by
        rw [min_eq_right hle] at hdeg
        rw [Nat.mul_comm]
        exact hdeg
      exact Nat.div_eq_of_lt hlt
  have hstep : stepFile enc (.image 4096 1 b) = (.errored, .image 4096 1 b) :=
    stepFile_err_zero enc 4096 1 b (by decide) (Or.inr (by rw [newSize_4096_1]))
  refine ⟨hr, hz, stepFile_err_zero enc w h b hr hz, newSize_4096_1, ?_, ?_⟩
  · simp [runLoop, hstep, Tally.bump]
  · simp [runLoop, hstep, Tally.bump]

/-! ### Witnesses -/

/-- Witness for C1 at the spec's concrete scenario 4096×2048. -/
theorem C1_witness :
    (0 < 4096 ∧ 0 < 2048 ∧ needsResize 4096 2048 = true ∧
      max 4096 2048 ≤ MAX_SIZE * min 4096 2048) ∧
    (ratio 4096 2048 = 1/4 ∧ newSize 4096 2048 = (1024, 512) ∧
     (runLoop (fun _ _ b => b) [("tex.png", FileData.image 4096 2048 [])]
        ⟨0,0,0⟩).1.resized = 1 ∧
     (runLoop (fun _ _ b => b) [("tex.png", FileData.image 4096 2048 [])]
        ⟨0,0,0⟩).1.skipped = 0 ∧
     (runLoop (fun _ _ b => b) [("tex.png", FileData.image 4096 2048 [])]
        ⟨0,0,0⟩).1.errors = 0) := by
  have h := C1_resize_target_size (fun _ _ b => b) 4096 2048 [] ⟨0,0,0⟩
    (by decide) (by decide) (by decide) (by decide)
  exact ⟨⟨by decide, by decide, by decide, by decide⟩, h.2⟩

/-- Witness for the amended C2: the response `maybe` (no match of either
token) cancels the run. -/
theorem C2_witness :
    ((([("a.png", FileData.image 100 100 [])] : List (String × FileData)).filter
        fun e => isPngName e.1).isEmpty = false ∧
     has4k ((([("a.png", FileData.image 100 100 [])] :
        List (String × FileData)).filter
          fun e => isPngName e.1).map Prod.snd) = false) ∧
    ((resize_textures (fun _ _ b => b)
        (some [("a.png", FileData.image 100 100 [])]) "maybe" = .cancelled ↔
      pyLower "maybe" ≠ ['y']) ∧
     exitCode ProgResult.cancelled = some 0) := by
  have h := C2_prompt_requires_yes (fun _ _ b => b)
    [("a.png", FileData.image 100 100 [])] "maybe" (by decide) (by decide)
  exact ⟨⟨by decide, by decide⟩, h⟩

/-- Witness for C3 at the spec's concrete scenario 800×600. -/
theorem C3_witness :
    (800 ≤ MAX_SIZE ∧ 600 ≤ MAX_SIZE) ∧
    (stepFile (fun _ _ b => b) (FileData.image 800 600 [7]) =
      (.skipped, FileData.image 800 600 [7]) ∧
     (Tally.bump ⟨0,0,0⟩
        (stepFile (fun _ _ b => b) (FileData.image 800 600 [7])).1).skipped = 1 ∧
     (Tally.bump ⟨0,0,0⟩
        (stepFile (fun _ _ b => b) (FileData.image 800 600 [7])).1).resized = 0 ∧
     (Tally.bump ⟨0,0,0⟩
        (stepFile (fun _ _ b => b) (FileData.image 800 600 [7])).1).errors = 0) := by
  have h := C3_skip_leaves_file (fun _ _ b => b) 800 600 [7] ⟨0,0,0⟩
    (by decide) (by decide)
  exact ⟨⟨by decide, by decide⟩, h⟩

/-- Witness for the amended C4 on an error-free first pass. -/
theorem C4_witness :
    (runLoop (fun _ _ b => b) [("a.png", FileData.image 100 100 [])]
        ⟨0,0,0⟩).1.errors = 0 ∧
    runLoop (fun _ _ b => b)
        (runLoop (fun _ _ b => b) [("a.png", FileData.image 100 100 [])]
          ⟨0,0,0⟩).2 ⟨0,0,0⟩ =
      ({ resized := 0,
         skipped := (runLoop (fun _ _ b => b)
           [("a.png", FileData.image 100 100 [])] ⟨0,0,0⟩).2.length,
         errors := 0 },
       (runLoop (fun _ _ b => b) [("a.png", FileData.image 100 100 [])]
          ⟨0,0,0⟩).2) := by
  have h := C4_second_run_skips (fun _ _ b => b) (fun _ _ b => b)
    [("a.png", FileData.image 100 100 [])] (by decide)
  exact ⟨by decide, h⟩

/-- Witness for C5: one corrupt file between two processable files. -/
theorem C5_witness :
    ((∀ e ∈ [("ok.png", FileData.image 800 600 [1])], processable e.2 = true) ∧
     (∀ e ∈ [("big.png", FileData.image 4096 2048 [2])], processable e.2 = true)) ∧
    ((runLoop (fun _ _ b => b)
        ([("ok.png", FileData.image 800 600 [1])] ++
          ("bad.png", FileData.corrupt []) ::
            [("big.png", FileData.image 4096 2048 [2])]) ⟨0,0,0⟩).1.errors = 1 ∧
     (runLoop (fun _ _ b => b)
        ([("ok.png", FileData.image 800 600 [1])] ++
          ("bad.png", FileData.corrupt []) ::
            [("big.png", FileData.image 4096 2048 [2])]) ⟨0,0,0⟩).1.resized +
       (runLoop (fun _ _ b => b)
        ([("ok.png", FileData.image 800 600 [1])] ++
          ("bad.png", FileData.corrupt []) ::
            [("big.png", FileData.image 4096 2048 [2])]) ⟨0,0,0⟩).1.skipped = 2 ∧
     (runLoop (fun _ _ b => b)
        ([("ok.png", FileData.image 800 600 [1])] ++
          ("bad.png", FileData.corrupt []) ::
            [("big.png", FileData.image 4096 2048 [2])]) ⟨0,0,0⟩).2.length = 3) := by
  have h := C5_one_bad_file (fun _ _ b => b)
    [("ok.png", FileData.image 800 600 [1])]
    [("big.png", FileData.image 4096 2048 [2])] "bad.png" []
    (by decide) (by decide)
  exact ⟨⟨by decide, by decide⟩, h⟩

/-- Witness for C6 at 4096×2048. -/
theorem C6_witness :
    (0 < 4096 ∧ 0 < 2048 ∧ needsResize 4096 2048 = true) ∧
    (ratio 4096 2048 ≤ 1 ∧
     max (newSize 4096 2048).1 (newSize 4096 2048).2 = MAX_SIZE) := by
  have h := C6_aspect_preserved 4096 2048 (by decide) (by decide) (by decide)
  exact ⟨⟨by decide, by decide, by decide⟩, h.1, h.2.1⟩

/-- Witness for the amended C7: a listing with only a non-PNG name. -/
theorem C7_witness :
    (([("notes.txt", FileData.corrupt [])] : List (String × FileData)).filter
        fun e => isPngName e.1).isEmpty = true ∧
    (scriptRun (fun _ _ b => b) .missing "" = .graceful .dirNotFound ∧
     runExitCode (scriptRun (fun _ _ b => b) .missing "") = some 1 ∧
     scriptRun (fun _ _ b => b) .regularFile "" = .uncaughtNotADirectory ∧
     runExitCode (scriptRun (fun _ _ b => b) .regularFile "") = some 1 ∧
     scriptRun (fun _ _ b => b)
        (.dir [("notes.txt", FileData.corrupt [])]) "" = .graceful .noFiles ∧
     runExitCode (scriptRun (fun _ _ b => b)
        (.dir [("notes.txt", FileData.corrupt [])]) "") = some 1) := by
  have h := C7_fatal_validation (fun _ _ b => b) ""
    [("notes.txt", FileData.corrupt [])] (by decide)
  exact ⟨by decide, h⟩

/-- Witness for C8: with a 4K file in the listing, the heuristic concludes
high-resolution and the run ignores the operator response. -/
theorem C8_witness :
    resize_textures (fun _ _ b => b)
        (some [("big.png", FileData.image 4096 2048 [])]) "a" =
      resize_textures (fun _ _ b => b)
        (some [("big.png", FileData.image 4096 2048 [])]) "b" :=
  C8_heuristic.2.2.2 (fun _ _ b => b) [("big.png", FileData.image 4096 2048 [])]
    "a" "b" (by decide)

/-- Witness for C9 on a completed one-file run. -/
theorem C9_witness :
    resize_textures (fun _ _ b => b)
        (some [("a.png", FileData.image 100 100 [])]) "y" =
      .done ⟨0,1,0⟩ [("a.png", FileData.image 100 100 [])] ∧
    ((⟨0,1,0⟩ : Tally).resized + (⟨0,1,0⟩ : Tally).skipped +
        (⟨0,1,0⟩ : Tally).errors =
      (([("a.png", FileData.image 100 100 [])] :
        List (String × FileData)).filter fun e => isPngName e.1).length ∧
     (⟨0,1,0⟩ : Tally).resized ≤
      (([("a.png", FileData.image 100 100 [])] :
        List (String × FileData)).filter fun e => isPngName e.1).length ∧
     (⟨0,1,0⟩ : Tally).skipped ≤
      (([("a.png", FileData.image 100 100 [])] :
        List (String × FileData)).filter fun e => isPngName e.1).length ∧
     (⟨0,1,0⟩ : Tally).errors ≤
      (([("a.png", FileData.image 100 100 [])] :
        List (String × FileData)).filter fun e => isPngName e.1).length ∧
     ([("a.png", FileData.image 100 100 [])] :
        List (String × FileData)).length =
      (([("a.png", FileData.image 100 100 [])] :
        List (String × FileData)).filter fun e => isPngName e.1).length) := by
  have h := C9_tally_partition (fun _ _ b => b)
    [("a.png", FileData.image 100 100 [])] "y" ⟨0,1,0⟩
    [("a.png", FileData.image 100 100 [])] (by decide)
  exact ⟨by decide, h⟩

/-- Witness for C10 at the degenerate 4096×1 image. -/
theorem C10_witness :
    (0 < 4096 ∧ 0 < 1 ∧ MAX_SIZE * min 4096 1 < max 4096 1) ∧
    (needsResize 4096 1 = true ∧
     ((newSize 4096 1).1 = 0 ∨ (newSize 4096 1).2 = 0) ∧
     stepFile (fun _ _ b => b) (FileData.image 4096 1 [9]) =
      (.errored, FileData.image 4096 1 [9]) ∧
     newSize 4096 1 = (1024, 0) ∧
     (runLoop (fun _ _ b => b) [("strip.png", FileData.image 4096 1 [9])]
        ⟨0,0,0⟩).1.errors = 1 ∧
     (runLoop (fun _ _ b => b) [("strip.png", FileData.image 4096 1 [9])]
        ⟨0,0,0⟩).1.resized = 0) := by
  have h := C10_zero_dimension_errors (fun _ _ b => b) 4096 1 [9] ⟨0,0,0⟩
    (by decide) (by decide) (by decide)
  exact ⟨⟨by decide, by decide, by decide⟩, h⟩
